import Mathlib

/-!
Verification development for the `scikit-optimize` example repository.

The repository's only source file is `examples/hyperparameter-optimisation.ipynb`,
a notebook that tunes a `GradientBoostingRegressor` with `gp_minimize`,
`forest_minimize` and `dummy_minimize` from the external `skopt` package.
This file embeds the notebook's data (the search space, the objective
function, the optimizer call sites, the convergence-curve computation)
directly from the source, and models the optimizer core (search-space
encoding, the driver loop) from the specification, since that code is not
part of the repository snapshot.

Real numbers from the notebook are embedded as rationals (`ℚ`), so that all
definitions are executable and all predicates decidable.
-/

/-- A value of one coordinate of a point: integer, continuous (rational in
this embedding) or categorical, matching the spec's `Dimension` kinds. -/
inductive Value where
  | intVal (i : Int)
  | contVal (q : ℚ)
  | catVal (s : String)
deriving DecidableEq, Repr

/-- One tunable dimension of a search space: `Continuous(low, high, log-scale)`,
`Integer(low, high)` or `Categorical(labels)` (spec §3, Data Model). -/
inductive Dimension where
  | integerDim (low high : Int)
  | continuousDim (low high : ℚ) (logScale : Bool)
  | categoricalDim (labels : List String)
deriving DecidableEq, Repr

/-- The spec's invariant on a single dimension: `low < high` for numeric
kinds; categorical label sets are non-empty and de-duplicated. -/
def dimensionWellFormed : Dimension → Prop
  | .integerDim low high => low < high
  | .continuousDim low high _ => low < high
  | .categoricalDim labels => labels ≠ [] ∧ labels.Nodup

instance : DecidablePred dimensionWellFormed := by
  intro d
  cases d <;> simp only [dimensionWellFormed] <;> infer_instance

/-- The notebook's five search-space dimensions together with the
hyper-parameter name each one is commented with in the source cell
`space = [(1, 5), (10**-5, 10**-1, "log-uniform"), (1, X.shape[1]),
(2, 30), (1, 30)]`.  `numFeatures` stands for `X.shape[1]`, the feature
count of the loaded dataset (13 for the Boston dataset). -/
def notebookSpaceNamed (numFeatures : Int) : List (String × Dimension) :=
  [("max_depth", .integerDim 1 5),
   ("learning_rate", .continuousDim (1 / 100000) (1 / 10) true),
   ("max_features", .integerDim 1 numFeatures),
   ("min_samples_split", .integerDim 2 30),
   ("min_samples_leaf", .integerDim 1 30)]

/-- The notebook's `space` value: the ordered list of dimensions. -/
def notebookSpace (numFeatures : Int) : List Dimension :=
  (notebookSpaceNamed numFeatures).map Prod.snd

/-- The feature count `X.shape[1]` of the Boston housing dataset loaded by
the notebook. -/
def bostonNumFeatures : Int := 13

/-- First index of a label in a categorical label list, `none` if absent. -/
def idxOf (s : String) : List String → Option Nat
  | [] => none
  | t :: rest => if t = s then some 0 else (idxOf s rest).map (· + 1)

/-- Whether a value is valid within a dimension's domain (spec §3: each
value of a Point is valid within its Dimension's domain). -/
def validValueB : Dimension → Value → Bool
  | .integerDim low high, .intVal i => decide (low ≤ i ∧ i ≤ high)
  | .continuousDim low high _, .contVal q => decide (low ≤ q ∧ q ≤ high)
  | .categoricalDim labels, .catVal s => labels.contains s
  | _, _ => false

/-- Modelled from the spec: the `encode` half of the Search Space component
(§4.1), which is not part of the repository snapshot.  Maps one native-typed
value to a real (here rational) coordinate; categorical dimensions are
ordinal encoded by their label's index. -/
def encodeValue : Dimension → Value → Option ℚ
  | .integerDim _ _, .intVal i => some (i : ℚ)
  | .continuousDim _ _ _, .contVal q => some q
  | .categoricalDim labels, .catVal s => (idxOf s labels).map (fun n => (n : ℚ))
  | _, _ => none

/-- Modelled from the spec: the `decode` half of the Search Space component
(§4.1).  Integer coordinates are rounded back to integers, categorical
coordinates are rounded and looked up in the label list. -/
def decodeValue : Dimension → ℚ → Option Value
  | .integerDim _ _, q => some (.intVal (round q))
  | .continuousDim _ _ _, q => some (.contVal q)
  | .categoricalDim labels, q => (labels.get? (round q).toNat).map .catVal

/-- Whether a point (ordered value list) is valid in a search space: one
value per dimension, each valid in its dimension. -/
def pointValidB (space : List Dimension) (p : List Value) : Bool :=
  space.length = p.length && (space.zip p).all fun dv => validValueB dv.1 dv.2

/-- Modelled from the spec: `encode(Point) -> vector of real numbers`
(§4.1), coordinate by coordinate over the dimension list. -/
def encodePoint : List Dimension → List Value → Option (List ℚ)
  | [], [] => some []
  | d :: ds, v :: vs =>
    match encodeValue d v, encodePoint ds vs with
    | some e, some es => some (e :: es)
    | _, _ => none
  | _, _ => none

/-- Modelled from the spec: `decode(vector) -> Point` (§4.1), coordinate by
coordinate over the dimension list. -/
def decodePoint : List Dimension → List ℚ → Option (List Value)
  | [], [] => some []
  | d :: ds, e :: es =>
    match decodeValue d e, decodePoint ds es with
    | some v, some vs => some (v :: vs)
    | _, _ => none
  | _, _ => none

theorem idxOf_get? {s : String} {l : List String} (h : s ∈ l) :
    ∃ n, idxOf s l = some n ∧ l.get? n = some s := by
  induction l with
  | nil => cases h
  | cons t rest ih =>
    by_cases ht : t = s
    · exact ⟨0, by simp [idxOf, ht], by simp [ht]⟩
    · have hs : s ∈ rest := by
        cases h with
        | head => exact absurd rfl ht
        | tail _ h => exact h
      obtain ⟨n, hn, hg⟩ := ih hs
      exact ⟨n + 1, by simp [idxOf, ht, hn], by simpa using hg⟩

/-- Value-level round trip: a valid value decodes back exactly from its
encoding. -/
theorem decodeValue_encodeValue {d : Dimension} {v : Value}
    (h : validValueB d v = true) :
    (encodeValue d v).bind (decodeValue d) = some v := by
  cases d with
  | integerDim low high =>
    cases v with
    | intVal i => simp [encodeValue, decodeValue]
    | contVal q => simp [validValueB] at h
    | catVal s => simp [validValueB] at h
  | continuousDim low high ls =>
    cases v with
    | intVal i => simp [validValueB] at h
    | contVal q => simp [encodeValue, decodeValue]
    | catVal s => simp [validValueB] at h
  | categoricalDim labels =>
    cases v with
    | intVal i => simp [validValueB] at h
    | contVal q => simp [validValueB] at h
    | catVal s =>
      have hs : s ∈ labels := by
        simpa [validValueB, List.elem_iff] using h
      obtain ⟨n, hn, hg⟩ := idxOf_get? hs
      rw [List.get?_eq_getElem?] at hg
      simp [encodeValue, decodeValue, hn, hg]

/-- Point-level round trip: a point valid in a search space decodes back
exactly from its encoding. -/
theorem decodePoint_encodePoint :
    ∀ (space : List Dimension) (p : List Value),
      pointValidB space p = true →
      (encodePoint space p).bind (decodePoint space) = some p := by
  intro space
  induction space with
  | nil =>
    intro p h
    cases p with
    | nil => simp [encodePoint, decodePoint]
    | cons v vs => simp [pointValidB] at h
  | cons d ds ih =>
    intro p h
    cases p with
    | nil => simp [pointValidB] at h
    | cons v vs =>
      have hlen : ds.length = vs.length := by
        have := (Bool.and_eq_true _ _).mp h
        simpa using of_decide_eq_true this.1
      have hall := ((Bool.and_eq_true _ _).mp h).2
      have hv : validValueB d v = true := by
        have := (List.all_eq_true.mp hall) (d, v) (by simp [List.zip])
        simpa using this
      have hrest : pointValidB ds vs = true := by
        simp only [pointValidB, Bool.and_eq_true]
        constructor
        · exact decide_eq_true hlen
        · refine List.all_eq_true.mpr ?_
          intro x hx
          refine (List.all_eq_true.mp hall) x ?_
          exact List.mem_cons_of_mem _ (by simpa [List.zip] using hx)
      have hvv := decodeValue_encodeValue hv
      have hr := ih vs hrest
      cases he : encodeValue d v with
      | none => simp [he] at hvv
      | some e =>
        cases hes : encodePoint ds vs with
        | none => simp [hes] at hr
        | some es =>
          simp only [he, Option.some_bind] at hvv
          simp only [hes, Option.some_bind] at hr
          cases hde : decodeValue d e with
          | none => simp [hde] at hvv
          | some v' =>
            cases hdes : decodePoint ds es with
            | none => simp [hdes] at hr
            | some vs' =>
              rw [hde] at hvv
              rw [hdes] at hr
              have hv' : v' = v := by simpa using hvv
              have hvs' : vs' = vs := by simpa using hr
              subst hv' hvs'
              simp [encodePoint, he, hes, decodePoint, hde, hdes]

/-- The five hyper-parameters of the `GradientBoostingRegressor` that the
notebook's `objective` sets via `reg.set_params(...)`, in the order the
`params` argument is unpacked:
`max_depth, learning_rate, max_features, min_samples_split,
min_samples_leaf = params`. -/
structure EstimatorParams where
  max_depth : Value
  learning_rate : Value
  max_features : Value
  min_samples_split : Value
  min_samples_leaf : Value
deriving DecidableEq, Repr

/-- The number of cross-validation folds the notebook passes to
`cross_val_score` (`cv=5`). -/
def cvFoldCount : Nat := 5

/-- `np.mean` over a list of fold scores: sum divided by length. -/
def npMean (scores : List ℚ) : ℚ := scores.sum / (scores.length : ℚ)

/-- The notebook's `objective` function.  `crossValScores` stands for the
external `cross_val_score(reg, X, y, cv=5, ...)` call, abstracted as a
function from the estimator's hyper-parameters to the list of fold scores;
the notebook returns `-np.mean(...)` of those scores.  A `params` argument
that is not a five-value sequence would fail Python's tuple unpacking, which
the embedding renders as `none`. -/
def objective (crossValScores : EstimatorParams → List ℚ)
    (params : List Value) : Option ℚ :=
  match params with
  | [md, lr, mf, mss, msl] =>
    some (-(npMean (crossValScores ⟨md, lr, mf, mss, msl⟩)))
  | _ => none

/-- The order in which the notebook's `objective` unpacks its `params`
argument into hyper-parameter names. -/
def objectiveUnpackOrder : List String :=
  ["max_depth", "learning_rate", "max_features",
   "min_samples_split", "min_samples_leaf"]

/-- One entry of the Observation log: an evaluated point and its objective
value (spec §3: `Observation`). -/
structure Observation where
  point : List Value
  value : ℚ
deriving DecidableEq, Repr

/-- The record returned to the caller (spec §3: `OptimizationResult`), with
the fields the notebook reads: `x` (best point), `fun_` (best value, the
notebook's `res.fun`), `x_iters` (all evaluated points in order) and
`func_vals` (all objective values in order), plus the seed metadata. -/
structure OptimizationResult where
  x : List Value
  fun_ : ℚ
  x_iters : List (List Value)
  func_vals : List ℚ
  seed : Nat
deriving DecidableEq, Repr

/-- Minimum of a value list, `0` on the empty list (only ever applied to
non-empty logs). -/
def bestOf : List ℚ → ℚ
  | [] => 0
  | [v] => v
  | v :: w :: rest => min v (bestOf (w :: rest))

/-- Index of the first minimal element of a value list (the embedding of
`np.argmin` used to assemble the result). -/
def argminIdx : List ℚ → Nat
  | [] => 0
  | [_] => 0
  | v :: w :: rest => if v ≤ bestOf (w :: rest) then 0 else argminIdx (w :: rest) + 1

/-- Modelled from the spec: a deterministic pseudo-random generator step for
the explicitly owned, single-owner RNG of §5 and §9 (the spec fixes the
draw discipline, not the generator; a linear congruential step is used). -/
def rngNext (s : Nat) : Nat := (s * 1103515245 + 12345) % 2147483648

/-- Modelled from the spec: drawing one value of a dimension from the RNG
(§4.1 `sample`).  The notebook's claims do not depend on the distribution,
so the log-scale continuous draw uses the same rational grid as the linear
one (a faithful exponentiated draw is irrational). -/
def sampleValue (d : Dimension) (r : Nat) : Value :=
  match d with
  | .integerDim low high => .intVal (low + ((r % (high - low + 1).toNat : Nat) : Int))
  | .continuousDim low high _ => .contVal (low + (high - low) * ((r % 1000 : Nat) : ℚ) / 1000)
  | .categoricalDim labels => .catVal (labels.getD (r % labels.length) "")

/-- Modelled from the spec: sampling one point, one RNG draw per dimension,
returning the advanced RNG state (§4.1, §5 draw-order contract). -/
def samplePoint : List Dimension → Nat → List Value × Nat
  | [], rng => ([], rng)
  | d :: ds, rng =>
    let r := rngNext rng
    let rest := samplePoint ds r
    (sampleValue d r :: rest.1, rest.2)

/-- Modelled from the spec: the random proposal strategy (the `dummy`
variant of §4.2 and the fallback of §4.5) — ignores the log and samples
the space. -/
def randomPropose (space : List Dimension) :
    List Observation → Nat → List Value × Nat :=
  fun _ rng => samplePoint space rng

/-- Modelled from the spec: the driver's evaluation loop (§4.5 WarmUp +
ModelLoop): while budget remains, obtain the next point from the proposal
strategy (which may consult the whole log so far), evaluate the objective,
and append the Observation; the log is append-only and never truncated. -/
def runLoop (obj : List Value → ℚ)
    (propose : List Observation → Nat → List Value × Nat) :
    Nat → List Observation → Nat → List Observation
  | 0, log, _ => log
  | fuel + 1, log, rng =>
    let pr := propose log rng
    runLoop obj propose fuel (log ++ [⟨pr.1, obj pr.1⟩]) pr.2

/-- Modelled from the spec: a full optimizer run (§4.5): `n_calls`
evaluations from the seeded RNG, then Terminal assembly of the
OptimizationResult — best index by first minimum over the value log
(`np.argmin`), best point and value read off at that index. -/
def run (obj : List Value → ℚ)
    (propose : List Observation → Nat → List Value × Nat)
    (n_calls seed : Nat) : OptimizationResult :=
  let log := runLoop obj propose n_calls [] seed
  let vals := log.map Observation.value
  let pts := log.map Observation.point
  let best := argminIdx vals
  { x := pts.getD best []
    fun_ := vals.getD best 0
    x_iters := pts
    func_vals := vals
    seed := seed }

theorem runLoop_length (obj : List Value → ℚ)
    (propose : List Observation → Nat → List Value × Nat) :
    ∀ (fuel : Nat) (log : List Observation) (rng : Nat),
      (runLoop obj propose fuel log rng).length = log.length + fuel := by
  intro fuel
  induction fuel with
  | zero => intro log rng; simp [runLoop]
  | succ n ih =>
    intro log rng
    simp only [runLoop]
    rw [ih]
    simp
    omega

theorem bestOf_mem : ∀ {l : List ℚ}, l ≠ [] → bestOf l ∈ l := by
  intro l
  induction l with
  | nil => intro h; exact absurd rfl h
  | cons v rest ih =>
    intro _
    cases rest with
    | nil => simp [bestOf]
    | cons w rs =>
      rcases min_cases v (bestOf (w :: rs)) with ⟨hm, _⟩ | ⟨hm, _⟩
      · simp [bestOf, hm]
      · have := ih (by simp)
        simp [bestOf, hm]
        right
        simpa using this

theorem bestOf_le : ∀ {l : List ℚ} {x : ℚ}, x ∈ l → bestOf l ≤ x := by
  intro l
  induction l with
  | nil => intro x h; cases h
  | cons v rest ih =>
    intro x hx
    cases rest with
    | nil =>
      have : x = v := by simpa using hx
      simp [bestOf, this]
    | cons w rs =>
      rcases List.mem_cons.mp hx with h | h
      · subst h
        exact min_le_left _ _
      · exact le_trans (min_le_right _ _) (ih h)

theorem getD_argminIdx :
    ∀ {l : List ℚ}, l ≠ [] → l.getD (argminIdx l) 0 = bestOf l := by
  intro l
  induction l with
  | nil => intro h; exact absurd rfl h
  | cons v rest ih =>
    intro _
    cases rest with
    | nil => simp [argminIdx, bestOf]
    | cons w rs =>
      by_cases hle : v ≤ bestOf (w :: rs)
      · simp [argminIdx, bestOf, hle, min_eq_left hle]
      · have hlt : bestOf (w :: rs) < v := lt_of_not_le hle
        have := ih (by simp)
        simp [argminIdx, bestOf, hle, min_eq_right (le_of_lt hlt)]
        simpa [List.getD] using this

/-- The notebook's `n_points = 50` used in the visualization cell. -/
def nPoints : Nat := 50

/-- The notebook's convergence-curve computation
`[-np.min(res.func_vals[:i+1]) for i in range(n_points)]`:
the negated running minimum of the value log over growing prefixes. -/
def bestCurve (func_vals : List ℚ) (n_points : Nat) : List ℚ :=
  (List.range n_points).map fun i => -(bestOf (func_vals.take (i + 1)))

/-- One optimizer invocation as written in the notebook: the function
invoked and the keyword arguments supplying the evaluation budget and the
seed. -/
structure OptimizerCall where
  optimizer : String
  budgetKeyword : String
  budgetValue : Nat
  seedKeyword : String
  seedValue : Nat
deriving DecidableEq, Repr

/-- The call `res_gp = gp_minimize(objective, space, maxiter=50,
random_state=0)`. -/
def gpMinimizeCall : OptimizerCall :=
  { optimizer := "gp_minimize", budgetKeyword := "maxiter", budgetValue := 50,
    seedKeyword := "random_state", seedValue := 0 }

/-- The call `res_forest = forest_minimize(objective, space, maxiter=50,
random_state=0)`. -/
def forestMinimizeCall : OptimizerCall :=
  { optimizer := "forest_minimize", budgetKeyword := "maxiter", budgetValue := 50,
    seedKeyword := "random_state", seedValue := 0 }

/-- The call `res_dummy = dummy_minimize(objective, space, maxiter=50,
random_state=0)`. -/
def dummyMinimizeCall : OptimizerCall :=
  { optimizer := "dummy_minimize", budgetKeyword := "maxiter", budgetValue := 50,
    seedKeyword := "random_state", seedValue := 0 }

/-- All three optimizer invocations of the notebook, in program order. -/
def notebookOptimizerCalls : List OptimizerCall :=
  [gpMinimizeCall, forestMinimizeCall, dummyMinimizeCall]

/-- The vocabulary of behaviors a statement of the notebook could exhibit.
The first group is what the file actually contains (imports, setup, the
objective and space definitions, external optimizer invocations, result
reporting, convergence plotting); the last three constructors are the local
computations the spec asserts are absent from the file (optimization,
sampling, surrogate-model fitting performed by the notebook itself). -/
inductive NotebookAction where
  | importModule (module : String)
  | configureFigure
  | loadDataset (name : String)
  | defineEstimator
  | defineObjective
  | defineSpace
  | invokeOptimizer (optimizer : String)
  | formatBestScore
  | printBestParams
  | computeRunningMinimum
  | plotCurve (label : String)
  | showLegendAndPlot
  | sampleSpaceLocally
  | fitSurrogateLocally
  | maximizeAcquisitionLocally
deriving DecidableEq, Repr

/-- The notebook's statements, cell by cell, transcribed in program order
from the source file. -/
def notebookActions : List NotebookAction :=
  [.importModule "numpy",
   .importModule "matplotlib.pyplot",
   .configureFigure,
   .importModule "sklearn.datasets",
   .importModule "sklearn.ensemble",
   .importModule "sklearn.model_selection",
   .loadDataset "boston",
   .defineEstimator,
   .defineObjective,
   .defineSpace,
   .importModule "skopt",
   .invokeOptimizer "gp_minimize",
   .formatBestScore,
   .printBestParams,
   .importModule "skopt",
   .invokeOptimizer "forest_minimize",
   .formatBestScore,
   .printBestParams,
   .importModule "skopt",
   .invokeOptimizer "dummy_minimize",
   .formatBestScore,
   .printBestParams,
   .computeRunningMinimum,
   .plotCurve "GP-based search",
   .computeRunningMinimum,
   .plotCurve "Forest-based search",
   .computeRunningMinimum,
   .plotCurve "Random search",
   .showLegendAndPlot]

/-- Whether an action is one of the local optimization / sampling /
surrogate-model computations the notebook is asserted not to perform. -/
def performsLocalOptimization : NotebookAction → Bool
  | .sampleSpaceLocally => true
  | .fitSurrogateLocally => true
  | .maximizeAcquisitionLocally => true
  | _ => false

/-- The optimizer a statement invokes, if any. -/
def invokedOptimizer : NotebookAction → Option String
  | .invokeOptimizer o => some o
  | _ => none

/-- A concrete point of the notebook's search space, used to instantiate
hypotheses at explicit inputs. -/
def examplePoint : List Value :=
  [Value.intVal 3, Value.contVal (1 / 100), Value.intVal 6,
   Value.intVal 23, Value.intVal 2]

/-- Claim C7: every dimension of the search space the notebook builds
satisfies the `low < high` invariant — `(1, 5)`, `(10^-5, 10^-1,
log-uniform)`, `(1, X.shape[1])`, `(2, 30)` and `(1, 30)` all have their
lower bound strictly below their upper bound (given the dataset has more
than one feature). -/
theorem c7_notebook_space_well_formed (numFeatures : Int)
    (h : 1 < numFeatures) :
    ∀ d ∈ notebookSpace numFeatures, dimensionWellFormed d := by
  intro d hd
  simp only [notebookSpace, notebookSpaceNamed, List.map_cons, List.map_nil,
    List.mem_cons, List.not_mem_nil, or_false] at hd
  rcases hd with h1 | h1 | h1 | h1 | h1 <;> subst h1 <;>
    simp only [dimensionWellFormed] <;> norm_num
  exact h

/-- Witness for C7 at the notebook's actual feature count (13, the Boston
dataset). -/
theorem c7_witness :
    1 < bostonNumFeatures ∧
      ∀ d ∈ notebookSpace bostonNumFeatures, dimensionWellFormed d :=
  ⟨by decide, c7_notebook_space_well_formed bostonNumFeatures (by decide)⟩

/-- Claim C8: for every search space and every point valid in it, decoding
the encoding returns the point exactly — in this exact-rational embedding
the round trip is exact for discrete and categorical dimensions as claimed,
and for continuous dimensions exact equality holds, which is within any
floating tolerance ε. -/
theorem c8_encode_decode_round_trip (space : List Dimension)
    (p : List Value) (h : pointValidB space p = true) :
    (encodePoint space p).bind (decodePoint space) = some p :=
  decodePoint_encodePoint space p h

/-- Witness for C8 on the notebook's search space and a concrete valid
point. -/
theorem c8_witness :
    pointValidB (notebookSpace bostonNumFeatures) examplePoint = true ∧
      (encodePoint (notebookSpace bostonNumFeatures) examplePoint).bind
          (decodePoint (notebookSpace bostonNumFeatures)) =
        some examplePoint := by
  have h : pointValidB (notebookSpace bostonNumFeatures) examplePoint = true := by
    norm_num [pointValidB, notebookSpace, notebookSpaceNamed, examplePoint,
      validValueB, bostonNumFeatures]
  exact ⟨h, c8_encode_decode_round_trip _ _ h⟩

/-- Claim C1: the notebook's `objective` takes a single decoded point and
unpacks it into `(max_depth, learning_rate, max_features,
min_samples_split, min_samples_leaf)` in exactly the order those five
dimensions are listed in `space`, and returns a single number to be
minimized (the negated mean cross-validation score). -/
theorem c1_objective_matches_space_order :
    (∀ numFeatures : Int,
        (notebookSpaceNamed numFeatures).map Prod.fst = objectiveUnpackOrder) ∧
      ∀ (cv : EstimatorParams → List ℚ) (a b c d e : Value),
        objective cv [a, b, c, d, e] =
          some (-(npMean (cv ⟨a, b, c, d, e⟩))) :=
  ⟨fun _ => rfl, fun _ _ _ _ _ _ => rfl⟩

/-- Claim C9: the quantity the notebook minimizes is exactly
`-mean(cross_val_score(...))`, so a strictly higher mean cross-validation
score always yields a strictly lower objective value. -/
theorem c9_objective_negated_mean_antitone
    (cv cv' : EstimatorParams → List ℚ) (a b c d e : Value) (v v' : ℚ)
    (hv : objective cv [a, b, c, d, e] = some v)
    (hv' : objective cv' [a, b, c, d, e] = some v')
    (hgt : npMean (cv ⟨a, b, c, d, e⟩) > npMean (cv' ⟨a, b, c, d, e⟩)) :
    v = -(npMean (cv ⟨a, b, c, d, e⟩)) ∧ v < v' := by
  have h1 : v = -(npMean (cv ⟨a, b, c, d, e⟩)) := by
    have := hv.symm
    simpa [objective] using this
  have h2 : v' = -(npMean (cv' ⟨a, b, c, d, e⟩)) := by
    have := hv'.symm
    simpa [objective] using this
  subst h1 h2
  exact ⟨rfl, neg_lt_neg hgt⟩

/-- Witness for C9 with two concrete score functions: constant fold scores
1 (mean 1, objective value -1) versus constant fold scores 0 (mean 0,
objective value 0). -/
theorem c9_witness :
    objective (fun _ => [(1 : ℚ), 1, 1, 1, 1]) examplePoint = some (-1) ∧
      objective (fun _ => [(0 : ℚ), 0, 0, 0, 0]) examplePoint = some 0 ∧
      npMean [(1 : ℚ), 1, 1, 1, 1] > npMean [(0 : ℚ), 0, 0, 0, 0] ∧
      ((-1 : ℚ) = -npMean [(1 : ℚ), 1, 1, 1, 1] ∧ (-1 : ℚ) < 0) := by
  refine ⟨by norm_num [objective, npMean, examplePoint],
    by norm_num [objective, npMean, examplePoint],
    by norm_num [npMean], ?_⟩
  have h := c9_objective_negated_mean_antitone
    (fun _ => [(1 : ℚ), 1, 1, 1, 1]) (fun _ => [(0 : ℚ), 0, 0, 0, 0])
    (Value.intVal 3) (Value.contVal (1 / 100)) (Value.intVal 6)
    (Value.intVal 23) (Value.intVal 2) (-1) 0
    (by norm_num [objective, npMean]) (by norm_num [objective, npMean])
    (by norm_num [npMean])
  simpa [npMean] using h

/-- Claim C2 counterexample: the notebook's `gp_minimize` invocation
supplies the evaluation budget through the keyword `maxiter`, not through
`n_calls` as the claim states. -/
theorem c2_counterexample :
    gpMinimizeCall ∈ notebookOptimizerCalls ∧
      gpMinimizeCall.budgetKeyword ≠ "n_calls" := by
  exact ⟨by simp [notebookOptimizerCalls], by decide⟩

/-- Claim C2 amended: every optimizer invocation in the notebook supplies
the total evaluation budget through the keyword `maxiter` (value 50) and
the seed through `random_state` (value 0). -/
theorem c2_amended_budget_keyword_is_maxiter (c : OptimizerCall)
    (h : c ∈ notebookOptimizerCalls) :
    c.budgetKeyword = "maxiter" ∧ c.budgetValue = 50 ∧
      c.seedKeyword = "random_state" ∧ c.seedValue = 0 := by
  simp only [notebookOptimizerCalls, List.mem_cons, List.not_mem_nil,
    or_false] at h
  rcases h with h | h | h <;> subst h <;> exact ⟨rfl, rfl, rfl, rfl⟩

/-- Witness for the amended C2 at the `gp_minimize` call. -/
theorem c2_witness :
    gpMinimizeCall ∈ notebookOptimizerCalls ∧
      (gpMinimizeCall.budgetKeyword = "maxiter" ∧
        gpMinimizeCall.budgetValue = 50 ∧
        gpMinimizeCall.seedKeyword = "random_state" ∧
        gpMinimizeCall.seedValue = 0) :=
  ⟨by simp [notebookOptimizerCalls],
   c2_amended_budget_keyword_is_maxiter gpMinimizeCall
     (by simp [notebookOptimizerCalls])⟩

/-- Claim C6: the notebook performs no optimization, sampling or
surrogate-model computation of its own — every transcribed statement is
import/setup/objective/space/reporting/plotting glue, and the only
optimizer invocations are of the three external functions `gp_minimize`,
`forest_minimize` and `dummy_minimize`, in that order. -/
theorem c6_notebook_is_glue_only :
    notebookActions.all (fun a => !performsLocalOptimization a) = true ∧
      notebookActions.filterMap invokedOptimizer =
        ["gp_minimize", "forest_minimize", "dummy_minimize"] :=
  ⟨rfl, rfl⟩

/-- Claim C3 (driver modelled from the spec): for every completed run, the
best value reported in the result (`fun_`, the notebook's `res.fun`) is the
minimum of the objective values in the full Observation log: it occurs in
`func_vals` and is a lower bound of `func_vals`. -/
theorem c3_best_equals_log_minimum
    (obj : List Value → ℚ)
    (propose : List Observation → Nat → List Value × Nat)
    (n_calls seed : Nat) (h : 1 ≤ n_calls) :
    (run obj propose n_calls seed).fun_ ∈
        (run obj propose n_calls seed).func_vals ∧
      ∀ v ∈ (run obj propose n_calls seed).func_vals,
        (run obj propose n_calls seed).fun_ ≤ v := by
  have hlen : (runLoop obj propose n_calls [] seed).length = n_calls := by
    simpa using runLoop_length obj propose n_calls [] seed
  have hne : (runLoop obj propose n_calls [] seed).map Observation.value ≠ [] := by
    intro hemp
    have hx := congrArg List.length hemp
    simp only [List.length_map, hlen, List.length_nil] at hx
    omega
  have hfun : (run obj propose n_calls seed).fun_ =
      bestOf ((runLoop obj propose n_calls [] seed).map Observation.value) := by
    simpa [run] using getD_argminIdx hne
  have hfv : (run obj propose n_calls seed).func_vals =
      (runLoop obj propose n_calls [] seed).map Observation.value := by
    simp [run]
  constructor
  · rw [hfun, hfv]
    exact bestOf_mem hne
  · intro v hv
    rw [hfv] at hv
    rw [hfun]
    exact bestOf_le hv

/-- A concrete objective used to instantiate the driver at explicit
inputs. -/
def toyObjective : List Value → ℚ := fun p => (p.length : ℚ)

/-- A concrete proposal strategy: random sampling over the notebook's
search space. -/
def toyPropose : List Observation → Nat → List Value × Nat :=
  randomPropose (notebookSpace bostonNumFeatures)

/-- Witness for C3 on a concrete two-evaluation run. -/
theorem c3_witness :
    1 ≤ 2 ∧
      ((run toyObjective toyPropose 2 0).fun_ ∈
          (run toyObjective toyPropose 2 0).func_vals ∧
        ∀ v ∈ (run toyObjective toyPropose 2 0).func_vals,
          (run toyObjective toyPropose 2 0).fun_ ≤ v) :=
  ⟨by decide, c3_best_equals_log_minimum toyObjective toyPropose 2 0 (by decide)⟩

/-- Claim C4 (driver modelled from the spec): for every non-degenerate
budget, the Observation log in the result has length exactly `n_calls`, so
every prefix index below the budget is in bounds. -/
theorem c4_log_length_is_budget
    (obj : List Value → ℚ)
    (propose : List Observation → Nat → List Value × Nat)
    (n_calls seed : Nat) (h : 1 ≤ n_calls) :
    (run obj propose n_calls seed).func_vals.length = n_calls ∧
      ∀ i, i < n_calls → i < (run obj propose n_calls seed).func_vals.length := by
  have hl : (run obj propose n_calls seed).func_vals.length = n_calls := by
    simp only [run, List.length_map]
    simpa using runLoop_length obj propose n_calls [] seed
  exact ⟨hl, fun i hi => by rw [hl]; exact hi⟩

/-- Witness for C4 at the notebook's actual budget of 50. -/
theorem c4_witness :
    1 ≤ 50 ∧
      ((run toyObjective toyPropose 50 0).func_vals.length = 50 ∧
        ∀ i, i < 50 → i < (run toyObjective toyPropose 50 0).func_vals.length) :=
  ⟨by decide, c4_log_length_is_budget toyObjective toyPropose 50 0 (by decide)⟩

/-- Claim C5 (driver modelled from the spec): a run is a pure function of
its configuration, so repeating a run with the same objective, proposal
strategy, budget and seed reproduces the identical Observation log — the
same point sequence and the same values, in the same order. -/
theorem c5_same_seed_reproduces_log
    (obj : List Value → ℚ)
    (propose : List Observation → Nat → List Value × Nat)
    (n_calls : Nat) (s₁ s₂ : Nat) (h : s₁ = s₂) :
    (run obj propose n_calls s₁).x_iters =
        (run obj propose n_calls s₂).x_iters ∧
      (run obj propose n_calls s₁).func_vals =
        (run obj propose n_calls s₂).func_vals := by
  subst h
  exact ⟨rfl, rfl⟩

/-- Witness for C5 on a concrete three-evaluation run with seed 0. -/
theorem c5_witness :
    (0 : Nat) = 0 ∧
      ((run toyObjective toyPropose 3 0).x_iters =
          (run toyObjective toyPropose 3 0).x_iters ∧
        (run toyObjective toyPropose 3 0).func_vals =
          (run toyObjective toyPropose 3 0).func_vals) :=
  ⟨rfl, c5_same_seed_reproduces_log toyObjective toyPropose 3 0 0 rfl⟩

theorem bestCurve_getD (l : List ℚ) (n i : Nat) (hi : i < n) :
    (bestCurve l n).getD i 0 = -(bestOf (l.take (i + 1))) := by
  simp [bestCurve, List.getD, List.getElem?_map, List.getElem?_range, hi]

/-- Claim C10: the notebook's plotted convergence curve
`[-np.min(func_vals[:i+1]) for i in range(50)]` is monotonically
non-decreasing: for `i ≤ j` below 50, the value at `i` is at most the value
at `j`, because the running minimum over a growing prefix never
increases. -/
theorem c10_convergence_curve_monotone (l : List ℚ) (i j : Nat)
    (hij : i ≤ j) (hj : j < nPoints) (hlen : l.length = nPoints) :
    (bestCurve l nPoints).getD i 0 ≤ (bestCurve l nPoints).getD j 0 := by
  have hi : i < nPoints := lt_of_le_of_lt hij hj
  rw [bestCurve_getD l nPoints i hi, bestCurve_getD l nPoints j hj]
  have hlne : l ≠ [] := by
    intro hx
    subst hx
    simp [nPoints] at hlen
  have htne : ∀ k : Nat, l.take (k + 1) ≠ [] := by
    intro k hx
    rcases List.take_eq_nil_iff.mp hx with h' | h'
    · omega
    · exact hlne h'
  have hsub : l.take (i + 1) ⊆ l.take (j + 1) := by
    have heq : l.take (i + 1) = (l.take (j + 1)).take (i + 1) := by
      rw [List.take_take, min_eq_left (by omega)]
    rw [heq]
    exact List.take_subset _ _
  have h1 : bestOf (l.take (i + 1)) ∈ l.take (j + 1) := hsub (bestOf_mem (htne i))
  have h2 : bestOf (l.take (j + 1)) ≤ bestOf (l.take (i + 1)) := bestOf_le h1
  exact neg_le_neg h2

/-- Witness for C10 on a concrete length-50 value log at indices 0 and 1. -/
theorem c10_witness :
    (0 : Nat) ≤ 1 ∧ 1 < nPoints ∧
      (List.replicate 50 (0 : ℚ)).length = nPoints ∧
      (bestCurve (List.replicate 50 (0 : ℚ)) nPoints).getD 0 0 ≤
        (bestCurve (List.replicate 50 (0 : ℚ)) nPoints).getD 1 0 :=
  ⟨by decide, by decide, by simp [nPoints],
   c10_convergence_curve_monotone (List.replicate 50 (0 : ℚ)) 0 1
     (by decide) (by decide) (by simp [nPoints])⟩
